import Mathlib

/-!
Verification of the bpad deployment orchestrator (src/bpad) against its
specification.

The Python sources are shallowly embedded as follows.

External behaviour is a value of a world type: an external command run in
this world produces a fixed exit code and a fixed combined stdout/stderr
text (the code launches every external command with stderr redirected
into stdout).  A Python function that can raise is embedded as a function
into PyResult, which is either a returned value or a raised exception.
Python character strings are Lean strings; str.upper and str.strip are
embedded as ASCII transformations on the underlying character list, which
agrees with Python on the ASCII inputs that appear in this development.
The process working directory and the set of directories that exist on
disk are passed explicitly where a function reads or changes them.

f-string renderings of Python lists and dicts are embedded by the
render functions below; they list the same elements in the same order as
the Python repr, omitting the quote characters around string elements.
-/

/-- Exceptions raised by the embedded code.  attributeError stands for the
AttributeError raised when an attribute access fails, in particular when
an except block evaluates e.message on an exception that has no message
attribute (true of every exception type that reaches those blocks in
Python 3), and when None.keys() is evaluated. -/
inductive PyExc where
  | calledProcessError (returncode : Nat) (output : String)
  | jsonDecodeError
  | fileNotFoundError
  | attributeError
  | keyError (msg : String)
deriving DecidableEq, Repr

/-- Result of running a Python function: a value, or a raised exception. -/
inductive PyResult (α : Type) where
  | ok (a : α)
  | raised (e : PyExc)
deriving DecidableEq, Repr

/-- Embedding of Python str.upper for the ASCII strings used here. -/
def pyUpper (s : String) : String :=
  String.mk (s.data.map Char.toUpper)

/-- Embedding of Python str.strip: drop leading and trailing whitespace. -/
def pyStrip (s : String) : String :=
  String.mk (((s.data.dropWhile Char.isWhitespace).reverse.dropWhile
    Char.isWhitespace).reverse)

/-- Embedding of ", ".join(elems), and of the comma-separated element list
inside the repr of a Python list. -/
def joinComma : List String → String
  | [] => ""
  | [s] => s
  | s :: t :: rest => s ++ ", " ++ joinComma (t :: rest)

/-- Rendering of a Python list of strings inside an f-string. -/
def renderStrList (ks : List String) : String :=
  "[" ++ joinComma ks ++ "]"

/-- Behaviour of one external command in the current world: its exit code
and the combined stdout/stderr text it produces. -/
structure CmdResult where
  exitCode : Nat
  output : String
deriving DecidableEq, Repr

/-- Embedding of subprocess CompletedProcess as used by this code: the
return code and captured stdout (stderr is redirected into stdout). -/
structure CompletedProcess where
  returncode : Nat
  stdout : String
deriving DecidableEq, Repr

/-- Embedding of bpad.util.exec_cmd, src/bpad/util.py lines 10-48.  The
command text is resolved by the world to a CmdResult.  subprocess.run with
check true raises CalledProcessError on a non-zero exit code; exec_cmd
logs it and re-raises it.  With check false the CompletedProcess is
returned whatever the exit code.  Output capture redirects stderr into
stdout, so stdout holds the combined text. -/
def exec_cmd (res : CmdResult) (check_return : Bool) : PyResult CompletedProcess :=
  if check_return && res.exitCode != 0 then
    .raised (.calledProcessError res.exitCode res.output)
  else
    .ok ⟨res.exitCode, res.output⟩

/-- Claim C9: exec_cmd raises an error if and only if the executed command
exits with non-zero status and the check flag is true (its default); when
the check flag is false, exec_cmd returns normally for every exit status,
returning the completed-process result with the command combined
stdout/stderr captured. -/
theorem exec_cmd_raises_iff (res : CmdResult) (check_return : Bool) :
    ((∃ e, exec_cmd res check_return = .raised e) ↔
      res.exitCode ≠ 0 ∧ check_return = true) ∧
    exec_cmd res false = .ok ⟨res.exitCode, res.output⟩ := by
  constructor
  · constructor
    · rintro ⟨e, he⟩
      by_cases hc : check_return && res.exitCode != 0
      · simp only [Bool.and_eq_true, bne_iff_ne] at hc
        exact ⟨hc.2, hc.1⟩
      · simp [exec_cmd, hc] at he
    · rintro ⟨h0, hc⟩
      refine ⟨.calledProcessError res.exitCode res.output, ?_⟩
      simp [exec_cmd, hc, h0]
  · simp [exec_cmd]

/-- Membership in a list makes the element an infix of the comma join. -/
theorem mem_data_infix_joinComma : ∀ (ks : List String) (k : String),
    k ∈ ks → k.data <:+: (joinComma ks).data
  | [], _, h => absurd h (List.not_mem_nil _)
  | [s], k, h => by
      have hk : k = s := List.mem_singleton.mp h
      subst hk
      exact List.infix_refl _
  | s :: t :: rest, k, h => by
      rcases List.mem_cons.mp h with h1 | h2
      · subst h1
        show k.data <:+: (k ++ ", " ++ joinComma (t :: rest)).data
        rw [String.data_append, String.data_append, List.append_assoc]
        exact (List.prefix_append k.data _).isInfix
      · have ih := mem_data_infix_joinComma (t :: rest) k h2
        show k.data <:+: (s ++ ", " ++ joinComma (t :: rest)).data
        rw [String.data_append, String.data_append]
        exact ih.trans (List.suffix_append _ _).isInfix

/-- A member of the rendered list is an infix of the rendering. -/
theorem mem_data_infix_renderStrList {ks : List String} {k : String}
    (h : k ∈ ks) : k.data <:+: (renderStrList ks).data := by
  unfold renderStrList
  rw [String.data_append, String.data_append]
  exact (mem_data_infix_joinComma ks k h).trans (List.infix_append _ _ _)

/-- A terraform output record; the code only ever reads its value field. -/
structure TfVal where
  value : String
deriving DecidableEq, Repr

/-- A terraform output mapping (dict) as an ordered association list. -/
abbrev TfOutputs := List (String × TfVal)

/-- Rendering of one terraform output record inside an f-string. -/
def renderTfVal (v : TfVal) : String :=
  "\x7bvalue: " ++ v.value ++ "\x7d"

/-- Rendering of a terraform output dict inside an f-string. -/
def renderTfOutputs (m : TfOutputs) : String :=
  "\x7b" ++ joinComma (m.map (fun p => p.1 ++ ": " ++ renderTfVal p.2)) ++ "\x7d"

/-- Message of the KeyError raised by Component._check_tfoutputs,
src/bpad/component.py line 61. -/
def missingKeysMsg (m : TfOutputs) (rs : List String) : String :=
  "Specified tf_outputs [" ++ renderTfOutputs m ++
    "] is missing one or more required_keys [" ++ renderStrList rs ++ "]"

/-- Embedding of Component._check_tfoutputs, src/bpad/component.py lines
35-61.  A falsy required_keys (None or the empty list) returns at once;
otherwise tf_outputs.keys() is read (AttributeError when tf_outputs is
None), every key is upper-cased on both sides, and the first required key
that is absent raises a KeyError whose message lists the whole dict and
the whole required_keys list. -/
def checkTfoutputs (tf_outputs : Option TfOutputs)
    (required_keys : Option (List String)) : PyResult Unit :=
  match required_keys with
  | none => .ok ()
  | some rs =>
    if rs.isEmpty then .ok ()
    else
      match tf_outputs with
      | none => .raised .attributeError
      | some m =>
        if rs.all (fun r => decide (pyUpper r ∈ m.map (fun p => pyUpper p.1)))
        then .ok ()
        else .raised (.keyError (missingKeysMsg m rs))

/-- Every required key is an infix of the missing-keys message, since the
message lists the whole required_keys list. -/
theorem mem_data_infix_missingKeysMsg {r : String} {m : TfOutputs}
    {rs : List String} (h : r ∈ rs) :
    r.data <:+: (missingKeysMsg m rs).data := by
  unfold missingKeysMsg
  rw [String.data_append, String.data_append, String.data_append]
  exact (mem_data_infix_renderStrList h).trans (List.infix_append _ _ _)

set_option maxRecDepth 8000 in
/-- Claim C5: Component._check_tfoutputs succeeds if and only if each
required key, compared after upper-casing both sides, is present among
the mapping keys; when some required key is absent it raises a
missing-key error whose message names the offending keys.  In particular,
required keys [Foo] against a mapping with key FOO succeed, and against a
mapping with only BAR fail with an error naming Foo. -/
theorem check_tfoutputs_case_insensitive (m : TfOutputs) (rs : List String) :
    (checkTfoutputs (some m) (some rs) = .ok () ↔
      ∀ r ∈ rs, pyUpper r ∈ m.map (fun p => pyUpper p.1)) ∧
    ((∃ r ∈ rs, pyUpper r ∉ m.map (fun p => pyUpper p.1)) →
      checkTfoutputs (some m) (some rs) =
        .raised (.keyError (missingKeysMsg m rs)) ∧
      ∀ r ∈ rs, r.data <:+: (missingKeysMsg m rs).data) ∧
    checkTfoutputs (some [("FOO", ⟨"v"⟩)]) (some ["Foo"]) = .ok () ∧
    checkTfoutputs (some [("BAR", ⟨"v"⟩)]) (some ["Foo"]) =
      .raised (.keyError (missingKeysMsg [("BAR", ⟨"v"⟩)] ["Foo"])) ∧
    "Foo".data <:+: (missingKeysMsg [("BAR", ⟨"v"⟩)] ["Foo"]).data := by
  refine ⟨?_, ?_, by decide, by decide, by decide⟩
  · simp only [checkTfoutputs]
    by_cases he : rs.isEmpty
    · rw [if_pos he]
      simp [List.isEmpty_iff.mp he]
    · rw [if_neg he]
      by_cases hall :
          (rs.all (fun r => decide (pyUpper r ∈ m.map (fun p => pyUpper p.1)))) = true
      · rw [if_pos hall]
        simp only [List.all_eq_true, decide_eq_true_eq] at hall
        exact iff_of_true rfl hall
      · rw [if_neg hall]
        constructor
        · intro hcontra
          exact absurd hcontra (by simp)
        · intro hforall
          exfalso
          apply hall
          rw [List.all_eq_true]
          intro r hr
          exact decide_eq_true (hforall r hr)
  · rintro ⟨r0, hr0, hmiss⟩
    have hne : ¬ (rs.isEmpty = true) := by
      cases rs with
      | nil => cases hr0
      | cons a t => simp
    have hall :
        ¬ ((rs.all (fun r => decide (pyUpper r ∈ m.map (fun p => pyUpper p.1)))) = true) := by
      intro hcontra
      rw [List.all_eq_true] at hcontra
      exact hmiss (decide_eq_true_eq.mp (hcontra r0 hr0))
    simp only [checkTfoutputs]
    rw [if_neg hne, if_neg hall]
    exact ⟨rfl, fun r hr => mem_data_infix_missingKeysMsg hr⟩

set_option maxRecDepth 8000 in
/-- Witness for claim C5 at the concrete inputs named by the claim. -/
theorem check_tfoutputs_case_insensitive_witness :
    checkTfoutputs (some [("BAR", ⟨"v"⟩)]) (some ["Foo"]) =
      .raised (.keyError (missingKeysMsg [("BAR", ⟨"v"⟩)] ["Foo"])) ∧
    "Foo".data <:+: (missingKeysMsg [("BAR", ⟨"v"⟩)] ["Foo"]).data := by
  have h := (check_tfoutputs_case_insensitive [("BAR", ⟨"v"⟩)] ["Foo"]).2.1
    (by decide)
  exact ⟨h.1, h.2 "Foo" (by decide)⟩

/-- Claim C10: Component._check_tfoutputs returns successfully without
inspecting the output mapping whenever required_keys is None or empty; in
particular it succeeds even when the mapping itself is None, so the
None-dereference branch is unreachable under that precondition. -/
theorem check_tfoutputs_empty_required_keys (tf : Option TfOutputs) :
    checkTfoutputs tf none = .ok () ∧
    checkTfoutputs tf (some []) = .ok () ∧
    checkTfoutputs none (some []) = .ok () := by
  exact ⟨rfl, rfl, rfl⟩

/-- Observable events of a Deployment.deploy or Deployment.undeploy call:
an invocation of the terraform output query (one per access of the
tf_outputs property), and an invocation of one component deploy or
undeploy operation. -/
inductive DeployEv where
  | queryOutputs
  | componentDeploy (id : Nat)
  | componentUndeploy (id : Nat)
deriving DecidableEq, Repr

/-- Embedding of Deployment.deploy, src/bpad/deployment.py lines 136-142.
The loop body evaluates self.tf_outputs (running the output query anew on
every access) and then calls component.deploy on it; the base
Component.deploy is a no-op, and concrete subclasses are outside this
repository, so the component call itself is modelled as succeeding.
queryRes is the outcome the world gives every access of the tf_outputs
property; if it raises, the loop aborts after that single query. -/
def deployRun (comps : List Nat) (queryRes : PyResult TfOutputs) :
    List DeployEv × PyResult Unit :=
  match comps with
  | [] => ([], .ok ())
  | c :: rest =>
    match queryRes with
    | .raised e => ([.queryOutputs], .raised e)
    | .ok _ =>
      let r := deployRun rest queryRes
      (.queryOutputs :: .componentDeploy c :: r.1, r.2)

/-- Embedding of Deployment.undeploy, src/bpad/deployment.py lines
170-176; same shape as deployRun with the component undeploy call. -/
def undeployRun (comps : List Nat) (queryRes : PyResult TfOutputs) :
    List DeployEv × PyResult Unit :=
  match comps with
  | [] => ([], .ok ())
  | c :: rest =>
    match queryRes with
    | .raised e => ([.queryOutputs], .raised e)
    | .ok _ =>
      let r := undeployRun rest queryRes
      (.queryOutputs :: .componentUndeploy c :: r.1, r.2)

/-- In a world where the output query succeeds, deployRun queries once
per component. -/
theorem deployRun_count_query (outs : TfOutputs) :
    ∀ comps : List Nat,
      (deployRun comps (.ok outs)).1.count DeployEv.queryOutputs = comps.length := by
  intro comps
  induction comps with
  | nil => rfl
  | cons c rest ih =>
    simp [deployRun, List.count_cons, ih]

/-- In a world where the output query succeeds, undeployRun queries once
per component. -/
theorem undeployRun_count_query (outs : TfOutputs) :
    ∀ comps : List Nat,
      (undeployRun comps (.ok outs)).1.count DeployEv.queryOutputs = comps.length := by
  intro comps
  induction comps with
  | nil => rfl
  | cons c rest ih =>
    simp [undeployRun, List.count_cons, ih]

/-- Claim C1, amended: a Deployment.deploy or Deployment.undeploy call
whose output queries succeed invokes the terraform output query once per
component (the tf_outputs property is accessed inside the component loop
and re-runs the query on every access), so a deploy call followed by an
undeploy call over n components issues 2 * n queries in total, with no
caching across accesses or calls. -/
theorem deploy_undeploy_query_per_component (comps : List Nat) (outs : TfOutputs) :
    (deployRun comps (.ok outs)).1.count DeployEv.queryOutputs = comps.length ∧
    (undeployRun comps (.ok outs)).1.count DeployEv.queryOutputs = comps.length ∧
    ((deployRun comps (.ok outs)).1 ++
        (undeployRun comps (.ok outs)).1).count DeployEv.queryOutputs =
      2 * comps.length := by
  refine ⟨deployRun_count_query outs comps, undeployRun_count_query outs comps, ?_⟩
  rw [List.count_append, deployRun_count_query outs comps,
    undeployRun_count_query outs comps]
  omega

/-- Counterexample to claim C1 as stated: a deploy call over a deployment
with two components invokes the terraform output query twice, not exactly
once per call. -/
theorem deploy_query_once_per_call_refuted :
    (deployRun [0, 1] (.ok [])).1.count DeployEv.queryOutputs = 2 ∧
    (deployRun [0, 1] (.ok [])).1.count DeployEv.queryOutputs ≠ 1 := by
  decide

/-- The platform path separator (os.sep on the POSIX systems this tool
targets). -/
def osSep : String := "/"

/-- Embedding of Python str.endswith for the strings used here. -/
def pyEndsWith (s suffixStr : String) : Bool :=
  suffixStr.data.isSuffixOf s.data

/-- Embedding of os.path.isabs on POSIX: the path starts with the
separator. -/
def pathIsAbsolute (p : String) : Bool :=
  osSep.data.isPrefixOf p.data

/-- Embedding of the per-deployment path resolution in
CLI._load_deployments, src/bpad/cli.py lines 84-86: when BASE_DIR is
non-empty and does not end with os.sep, the deployment path becomes
os.sep.join((BASE_DIR, path)); otherwise it is left unchanged.  Whether
the declared path is absolute is never examined. -/
def resolveDeploymentPath (baseDir declaredPath : String) : String :=
  if 0 < baseDir.length ∧ pyEndsWith baseDir osSep = false then
    baseDir ++ osSep ++ declaredPath
  else
    declaredPath

/-- Counterexample to claim C2 as stated: with the non-empty base
directory override /base/ (which ends with the separator) and the
non-absolute declared path rel, the resolved path is rel unchanged, not
base + separator + path. -/
theorem resolve_path_claim_refuted :
    0 < "/base/".length ∧
    pathIsAbsolute "rel" = false ∧
    resolveDeploymentPath "/base/" "rel" = "rel" ∧
    resolveDeploymentPath "/base/" "rel" ≠ "/base/" ++ osSep ++ "rel" := by
  decide

/-- Claim C2, amended: when the base-directory override is non-empty and
does not end with the path separator, the resolved path equals base +
separator + path for every declared path; when the override is empty, or
ends with the separator, the resolved path equals the declared path
unchanged. -/
theorem resolve_path_rule (baseDir p : String) :
    (0 < baseDir.length → pyEndsWith baseDir osSep = false →
      resolveDeploymentPath baseDir p = baseDir ++ osSep ++ p) ∧
    (baseDir = "" → resolveDeploymentPath baseDir p = p) ∧
    (pyEndsWith baseDir osSep = true → resolveDeploymentPath baseDir p = p) := by
  refine ⟨?_, ?_, ?_⟩
  · intro h1 h2
    unfold resolveDeploymentPath
    rw [if_pos ⟨h1, h2⟩]
  · intro h
    subst h
    rfl
  · intro h
    unfold resolveDeploymentPath
    rw [if_neg]
    rintro ⟨_, h2⟩
    rw [h] at h2
    cases h2

/-- Witness for claim C2 (amended) at concrete inputs. -/
theorem resolve_path_rule_witness :
    resolveDeploymentPath "/b" "x" = "/b" ++ osSep ++ "x" ∧
    resolveDeploymentPath "" "x" = "x" ∧
    resolveDeploymentPath "/b/" "x" = "x" :=
  ⟨(resolve_path_rule "/b" "x").1 (by decide) (by decide),
   (resolve_path_rule "" "x").2.1 rfl,
   (resolve_path_rule "/b/" "x").2.2 (by decide)⟩

/-- The world seen by one Deployment method that runs one terraform
command: the current working directory, the set of directories that
exist on disk (static over the single-threaded call), and the behaviour
of the terraform command when run in the deployment directory. -/
structure TfWorld where
  cwd : String
  dirs : List String
  cmdResult : CmdResult
deriving DecidableEq, Repr

/-- The fields of a Deployment that its terraform-facing methods read. -/
structure DeploymentM where
  name : String
  path : String
deriving DecidableEq, Repr

/-- Outcome of one Deployment method call: the returned value or raised
exception, the process working directory after the call, and the error
messages the call managed to log. -/
structure MethodRun (α : Type) where
  result : PyResult α
  finalCwd : String
  errorLogs : List String
deriving DecidableEq, Repr

/-- The finally block shared by Deployment.apply, Deployment.destroy and
the tf_outputs accessor: os.chdir(prev_cwd).  When prev exists the
pending result stands and the directory is restored; when prev no longer
exists the chdir raises, replacing the pending result, and the directory
stays where it was. -/
def finishWithRestore {α : Type} (dirs : List String) (cur prev : String)
    (pending : PyResult α) : MethodRun α :=
  if prev ∈ dirs then ⟨pending, prev, []⟩
  else ⟨.raised .fileNotFoundError, cur, []⟩

/-- Embedding of the Deployment.tf_outputs property getter,
src/bpad/deployment.py lines 80-100.  It saves the cwd, chdirs into the
deployment directory, runs terraform output -json through exec_cmd with
check true, and parses the stripped stdout with json.loads (parseJson is
the parser the world provides; none embeds a JSONDecodeError).  Any
exception lands in an except block whose logger.error f-string evaluates
e.message; none of CalledProcessError, JSONDecodeError or
FileNotFoundError has a message attribute in Python 3, so the f-string
itself raises AttributeError: nothing is logged and the AttributeError
propagates in place of the original exception.  The finally block
restores the saved working directory in every case. -/
def tfOutputsRun (d : DeploymentM) (w : TfWorld)
    (parseJson : String → Option TfOutputs) : MethodRun TfOutputs :=
  let prev := w.cwd
  if d.path ∈ w.dirs then
    match exec_cmd w.cmdResult true with
    | .raised _ => finishWithRestore w.dirs d.path prev (.raised .attributeError)
    | .ok proc =>
      match parseJson (pyStrip proc.stdout) with
      | none => finishWithRestore w.dirs d.path prev (.raised .attributeError)
      | some outs => finishWithRestore w.dirs d.path prev (.ok outs)
  else
    finishWithRestore w.dirs prev prev (.raised .attributeError)

/-- Embedding of Deployment.apply, src/bpad/deployment.py lines 106-119:
save the cwd, chdir into the deployment directory, run terraform apply
through exec_cmd with check true, restore the cwd in a finally block.
As in tfOutputsRun, the except block raises AttributeError off e.message
instead of logging and re-raising the original exception. -/
def applyRun (d : DeploymentM) (w : TfWorld) : MethodRun Unit :=
  let prev := w.cwd
  if d.path ∈ w.dirs then
    match exec_cmd w.cmdResult true with
    | .raised _ => finishWithRestore w.dirs d.path prev (.raised .attributeError)
    | .ok _ => finishWithRestore w.dirs d.path prev (.ok ())
  else
    finishWithRestore w.dirs prev prev (.raised .attributeError)

/-- Embedding of Deployment.destroy, src/bpad/deployment.py lines
144-157; identical control flow to applyRun around terraform destroy. -/
def destroyRun (d : DeploymentM) (w : TfWorld) : MethodRun Unit :=
  let prev := w.cwd
  if d.path ∈ w.dirs then
    match exec_cmd w.cmdResult true with
    | .raised _ => finishWithRestore w.dirs d.path prev (.raised .attributeError)
    | .ok _ => finishWithRestore w.dirs d.path prev (.ok ())
  else
    finishWithRestore w.dirs prev prev (.raised .attributeError)

/-- The restore helper returns to prev whenever prev exists. -/
theorem finishWithRestore_finalCwd {α : Type} (dirs : List String)
    (cur prev : String) (pending : PyResult α) (h : prev ∈ dirs) :
    (finishWithRestore dirs cur prev pending).finalCwd = prev := by
  simp [finishWithRestore, h]

/-- Claim C4: for every Deployment method that changes the process
working directory (apply, destroy, and the tf_outputs accessor), the
working directory observed immediately after the call, whether the call
returns normally or raises, equals the working directory observed
immediately before the call.  The sole assumption is that the starting
working directory still exists on disk. -/
theorem deployment_methods_restore_cwd (d : DeploymentM) (w : TfWorld)
    (parseJson : String → Option TfOutputs) (h : w.cwd ∈ w.dirs) :
    (applyRun d w).finalCwd = w.cwd ∧
    (destroyRun d w).finalCwd = w.cwd ∧
    (tfOutputsRun d w parseJson).finalCwd = w.cwd := by
  refine ⟨?_, ?_, ?_⟩
  · unfold applyRun
    by_cases hp : d.path ∈ w.dirs
    · rw [if_pos hp]
      cases exec_cmd w.cmdResult true <;>
        exact finishWithRestore_finalCwd _ _ _ _ h
    · rw [if_neg hp]
      exact finishWithRestore_finalCwd _ _ _ _ h
  · unfold destroyRun
    by_cases hp : d.path ∈ w.dirs
    · rw [if_pos hp]
      cases exec_cmd w.cmdResult true <;>
        exact finishWithRestore_finalCwd _ _ _ _ h
    · rw [if_neg hp]
      exact finishWithRestore_finalCwd _ _ _ _ h
  · unfold tfOutputsRun
    by_cases hp : d.path ∈ w.dirs
    · rw [if_pos hp]
      cases exec_cmd w.cmdResult true with
      | raised e => exact finishWithRestore_finalCwd _ _ _ _ h
      | ok proc =>
        cases hpj : parseJson (pyStrip proc.stdout) <;>
          simp only [hpj] <;>
          exact finishWithRestore_finalCwd _ _ _ _ h
    · rw [if_neg hp]
      exact finishWithRestore_finalCwd _ _ _ _ h

/-- Witness for claim C4 at a concrete deployment and world, covering a
successful apply and a failed output parse. -/
theorem deployment_methods_restore_cwd_witness :
    (applyRun ⟨"dep", "/dep"⟩ ⟨"/home", ["/home", "/dep"], ⟨0, "out"⟩⟩).finalCwd =
      "/home" ∧
    (destroyRun ⟨"dep", "/dep"⟩ ⟨"/home", ["/home", "/dep"], ⟨0, "out"⟩⟩).finalCwd =
      "/home" ∧
    (tfOutputsRun ⟨"dep", "/dep"⟩ ⟨"/home", ["/home", "/dep"], ⟨0, "out"⟩⟩
      (fun _ => none)).finalCwd = "/home" :=
  deployment_methods_restore_cwd ⟨"dep", "/dep"⟩
    ⟨"/home", ["/home", "/dep"], ⟨0, "out"⟩⟩ (fun _ => none) (by decide)

/-- Claim C3 concerns code that contradicts its own intent: in the world
where terraform output -json exits with status 1 and combined output
boom, the tf_outputs accessor raises AttributeError (the except block
evaluates e.message, which CalledProcessError does not define) instead
of logging and re-raising the CalledProcessError, and nothing is
logged. -/
theorem tf_outputs_error_replaced_not_logged
    (parseJson : String → Option TfOutputs) :
    (tfOutputsRun ⟨"mydep", "/dep"⟩ ⟨"/home", ["/home", "/dep"], ⟨1, "boom"⟩⟩
        parseJson).result = .raised .attributeError ∧
    (tfOutputsRun ⟨"mydep", "/dep"⟩ ⟨"/home", ["/home", "/dep"], ⟨1, "boom"⟩⟩
        parseJson).result ≠ .raised (.calledProcessError 1 "boom") ∧
    (tfOutputsRun ⟨"mydep", "/dep"⟩ ⟨"/home", ["/home", "/dep"], ⟨1, "boom"⟩⟩
        parseJson).errorLogs = [] := by
  have h1 : (tfOutputsRun ⟨"mydep", "/dep"⟩
      ⟨"/home", ["/home", "/dep"], ⟨1, "boom"⟩⟩ parseJson).result =
      .raised .attributeError := rfl
  refine ⟨h1, ?_, rfl⟩
  rw [h1]
  decide

/-- A loaded component as the CLI sees it: an identifier and the
directory path checked before dispatch. -/
structure CompM where
  id : Nat
  path : String
deriving DecidableEq, Repr

/-- A loaded deployment as the CLI sees it. -/
structure DepM where
  name : String
  path : String
  components : List CompM
deriving DecidableEq, Repr

/-- Lookup in the CLI deployments dict, built by repeated assignment in
CLI.__init__ (src/bpad/cli.py lines 54-58): the value is the last
binding of the key. -/
def pyDictGet (deps : List (String × DepM)) (k : String) : Option DepM :=
  (deps.reverse.find? (fun p => p.1 == k)).map (fun p => p.2)

/-- Keys of a dict built by repeated assignment, in first-insertion
order, each key once. -/
def firstKeysAux : List String → List (String × DepM) → List String
  | _, [] => []
  | seen, p :: rest =>
    if p.1 ∈ seen then firstKeysAux seen rest
    else p.1 :: firstKeysAux (p.1 :: seen) rest

/-- Keys of the CLI deployments dict. -/
def firstKeys (deps : List (String × DepM)) : List String :=
  firstKeysAux [] deps

/-- Embedding of CLI._check_paths, src/bpad/cli.py lines 60-75: the
deployment directory and every component directory must exist. -/
def checkPathsB (dep : DepM) (dirs : List String) : Bool :=
  decide (dep.path ∈ dirs) && dep.components.all (fun c => decide (c.path ∈ dirs))

/-- Message logged by every CLI verb on an unknown deployment name,
src/bpad/cli.py (for example line 103): the requested name, the joined
list of valid names, and the rendering of the caught KeyError. -/
def invalidNameMsg (name : String) (deps : List (String × DepM)) : String :=
  "Invalid deployment specified: " ++ name ++ "\n    Supported values: " ++
    joinComma (firstKeys deps) ++ "\n\tException: " ++ name

/-- Message logged by CLI._check_paths on a missing directory,
src/bpad/cli.py line 72. -/
def missingPathMsg (dep : DepM) : String :=
  "The specified path for deployment [" ++ dep.name ++
    "], or one of its components, was not found. Please ensure that the " ++
    "paths specified in [deployments.yml] are either 1) absolute paths, " ++
    "2) relative to your current working directory, or 3) relative to " ++
    "the path stored in the BPAD_TARGET environment variable."

/-- Outcome of one CLI lifecycle verb: SystemExit with a code and the
logged error message, or dispatch to the Deployment method. -/
inductive CliOutcome where
  | exited (code : Nat) (errMsg : String)
  | dispatched
deriving DecidableEq, Repr

/-- Embedding of the shared body of every CLI lifecycle verb (apply,
bootstrap, build, deploy, destroy, package, unbootstrap, undeploy and
aws_mfa_login all repeat it — for example src/bpad/cli.py lines 93-106):
look the name up in the deployments dict, on KeyError log the
invalid-name message and raise SystemExit(1), then check paths, on a
missing directory log and raise SystemExit(1), and only then dispatch to
the Deployment method.  dispatchCmds lists the external commands the
dispatched method would run; the second component of the result is the
list of external commands actually run by the verb. -/
def cliVerbRun (deps : List (String × DepM)) (dirs : List String)
    (name : String) (dispatchCmds : List String) : CliOutcome × List String :=
  match pyDictGet deps name with
  | none => (.exited 1 (invalidNameMsg name deps), [])
  | some dep =>
    if checkPathsB dep dirs then (.dispatched, dispatchCmds)
    else (.exited 1 (missingPathMsg dep), [])

/-- An absent key makes the dict lookup return none. -/
theorem pyDictGet_eq_none_of_not_mem {deps : List (String × DepM)}
    {k : String} (h : k ∉ deps.map Prod.fst) : pyDictGet deps k = none := by
  have hf : deps.reverse.find? (fun p => p.1 == k) = none := by
    apply List.find?_eq_none.mpr
    intro x hx hbeq
    exact h (List.mem_map.mpr ⟨x, List.mem_reverse.mp hx, beq_iff_eq.mp hbeq⟩)
  simp [pyDictGet, hf]

/-- Every key of the association sequence appears in the dict keys. -/
theorem mem_firstKeysAux : ∀ (deps : List (String × DepM))
    (seen : List String) (k : String),
    k ∈ deps.map Prod.fst → k ∉ seen → k ∈ firstKeysAux seen deps
  | [], _, _, h, _ => absurd h (by simp)
  | p :: rest, seen, k, h, hns => by
      rcases List.mem_map.mp h with ⟨q, hq, hqk⟩
      rcases List.mem_cons.mp hq with h1 | h2
      · subst h1
        rw [← hqk] at hns ⊢
        unfold firstKeysAux
        rw [if_neg hns]
        exact List.mem_cons_self _ _
      · unfold firstKeysAux
        by_cases hse : p.1 ∈ seen
        · rw [if_pos hse]
          exact mem_firstKeysAux rest seen k
            (List.mem_map.mpr ⟨q, h2, hqk⟩) hns
        · rw [if_neg hse]
          by_cases hkp : k = p.1
          · rw [hkp]
            exact List.mem_cons_self _ _
          · exact List.mem_cons_of_mem _
              (mem_firstKeysAux rest (p.1 :: seen) k
                (List.mem_map.mpr ⟨q, h2, hqk⟩)
                (by simp [hkp, hns]))

/-- Every valid deployment name is an infix of the invalid-name
message, which joins all dict keys. -/
theorem mem_data_infix_invalidNameMsg {deps : List (String × DepM)}
    {k name : String} (h : k ∈ deps.map Prod.fst) :
    k.data <:+: (invalidNameMsg name deps).data := by
  have h1 : k.data <:+: (joinComma (firstKeys deps)).data :=
    mem_data_infix_joinComma _ _ (mem_firstKeysAux deps [] k h (by simp))
  unfold invalidNameMsg
  rw [String.data_append, String.data_append, String.data_append,
    String.data_append, String.data_append]
  exact h1.trans ((List.infix_append _ _ _).trans
    (List.prefix_append _ _).isInfix)

/-- Claim C7: every CLI lifecycle verb invoked with a deployment name
that is not a key of the loaded deployment map terminates the process
with exit code 1, logs an error message listing all valid deployment
names, and invokes no Deployment method (so no external command is
run). -/
theorem cli_unknown_name_exits_one (deps : List (String × DepM))
    (dirs : List String) (name : String) (dispatchCmds : List String)
    (h : name ∉ deps.map Prod.fst) :
    cliVerbRun deps dirs name dispatchCmds =
      (.exited 1 (invalidNameMsg name deps), []) ∧
    ∀ k ∈ deps.map Prod.fst, k.data <:+: (invalidNameMsg name deps).data := by
  refine ⟨?_, fun k hk => mem_data_infix_invalidNameMsg hk⟩
  unfold cliVerbRun
  rw [pyDictGet_eq_none_of_not_mem h]

/-- Witness for claim C7: a two-deployment map and the unknown name
zeta. -/
theorem cli_unknown_name_exits_one_witness :
    cliVerbRun [("alpha", ⟨"alpha", "/a", []⟩), ("beta", ⟨"beta", "/b", []⟩)]
        ["/a", "/b"] "zeta" ["terraform apply"] =
      (.exited 1 (invalidNameMsg "zeta"
        [("alpha", ⟨"alpha", "/a", []⟩), ("beta", ⟨"beta", "/b", []⟩)]), []) ∧
    ∀ k ∈ [("alpha", (⟨"alpha", "/a", []⟩ : DepM)),
        ("beta", ⟨"beta", "/b", []⟩)].map Prod.fst,
      k.data <:+: (invalidNameMsg "zeta"
        [("alpha", ⟨"alpha", "/a", []⟩), ("beta", ⟨"beta", "/b", []⟩)]).data :=
  cli_unknown_name_exits_one
    [("alpha", ⟨"alpha", "/a", []⟩), ("beta", ⟨"beta", "/b", []⟩)]
    ["/a", "/b"] "zeta" ["terraform apply"] (by decide)

/-- Claim C8: every CLI lifecycle verb invoked on a known deployment
whose directory, or one of whose component directories, does not exist
terminates the process with exit code 1 and runs no external command:
path validation precedes dispatch to the Deployment method. -/
theorem cli_missing_path_exits_one (deps : List (String × DepM))
    (dirs : List String) (name : String) (dispatchCmds : List String)
    (dep : DepM) (h1 : pyDictGet deps name = some dep)
    (h2 : checkPathsB dep dirs = false) :
    cliVerbRun deps dirs name dispatchCmds =
      (.exited 1 (missingPathMsg dep), []) := by
  simp [cliVerbRun, h1, h2]

/-- Witness for claim C8: the deployment directory exists but the
component directory /c does not. -/
theorem cli_missing_path_exits_one_witness :
    cliVerbRun [("alpha", ⟨"alpha", "/a", [⟨0, "/c"⟩]⟩)] ["/a"] "alpha"
        ["terraform apply"] =
      (.exited 1 (missingPathMsg ⟨"alpha", "/a", [⟨0, "/c"⟩]⟩), []) :=
  cli_missing_path_exits_one [("alpha", ⟨"alpha", "/a", [⟨0, "/c"⟩]⟩)]
    ["/a"] "alpha" ["terraform apply"] ⟨"alpha", "/a", [⟨0, "/c"⟩]⟩
    (by decide) (by decide)

/-- One component as Deployment.build sees it: an identifier and the
outcome of its build operation (concrete Component subclasses live
outside this repository; a build that shells out through exec_cmd fails
with the calledProcessError carrying the captured combined output). -/
structure BuildComp where
  id : Nat
  buildOutcome : PyResult Unit
deriving DecidableEq, Repr

/-- One observed invocation of a component build operation, with the
arguments Deployment.build passes it. -/
structure BuildEv where
  compId : Nat
  deploymentName : String
  nocache : Bool
deriving DecidableEq, Repr

/-- Embedding of Deployment.build, src/bpad/deployment.py lines 124-134:
iterate the components in declared order, calling component.build with
the deployment name and the nocache flag; a raise aborts the loop and
propagates.  The first result component is the trace of component build
invocations in order. -/
def buildRun (name : String) (nocache : Bool) :
    List BuildComp → List BuildEv × PyResult Unit
  | [] => ([], .ok ())
  | c :: rest =>
    match c.buildOutcome with
    | .raised e => ([⟨c.id, name, nocache⟩], .raised e)
    | .ok _ =>
      let r := buildRun name nocache rest
      (⟨c.id, name, nocache⟩ :: r.1, r.2)

/-- Claim C6: Deployment.build invokes each component build operation
with the deployment name and the force flag, in declared order; when the
i-th component build raises, no later component is invoked in that call
and the error propagates to the caller — when the failure is a non-zero
external command run through exec_cmd, the propagated error carries the
captured combined output of the failed command. -/
theorem build_aborts_at_first_failure (name : String) (nocache : Bool)
    (pre post : List BuildComp) (c : BuildComp) (e : PyExc)
    (hfail : c.buildOutcome = .raised e)
    (hpre : ∀ x ∈ pre, x.buildOutcome = .ok ()) :
    buildRun name nocache (pre ++ c :: post) =
      ((pre ++ [c]).map (fun x => ⟨x.id, name, nocache⟩), .raised e) ∧
    ∀ res : CmdResult, res.exitCode ≠ 0 →
      exec_cmd res true = .raised (.calledProcessError res.exitCode res.output) := by
  constructor
  · induction pre with
    | nil => simp [buildRun, hfail]
    | cons x xs ih =>
      have hx : x.buildOutcome = .ok () := hpre x (List.mem_cons_self _ _)
      have ihx := ih (fun y hy => hpre y (List.mem_cons_of_mem _ hy))
      simp [buildRun, hx, ihx]
  · intro res h0
    simp [exec_cmd, h0]

/-- Witness for claim C6: three components, the second failing with a
command whose captured output is boom. -/
theorem build_aborts_at_first_failure_witness :
    buildRun "prod" false
        ([(⟨0, .ok ()⟩ : BuildComp)] ++
          (⟨1, .raised (.calledProcessError 2 "boom")⟩ : BuildComp) ::
          [(⟨2, .ok ()⟩ : BuildComp)]) =
      (([(⟨0, .ok ()⟩ : BuildComp)] ++
          [(⟨1, .raised (.calledProcessError 2 "boom")⟩ : BuildComp)]).map
        (fun x => (⟨x.id, "prod", false⟩ : BuildEv)),
        .raised (.calledProcessError 2 "boom")) ∧
    exec_cmd ⟨2, "boom"⟩ true = .raised (.calledProcessError 2 "boom") := by
  have h := build_aborts_at_first_failure "prod" false [⟨0, .ok ()⟩]
    [⟨2, .ok ()⟩] ⟨1, .raised (.calledProcessError 2 "boom")⟩
    (.calledProcessError 2 "boom") rfl (by decide)
  exact ⟨h.1, h.2 ⟨2, "boom"⟩ (by decide)⟩
